import Mathlib

/-
Verification of the trading core of a multi-pair spot grid-trading bot:
pure grid mathematics (src/strategy/grid_math.py), the pooled multi-pair
position tracker (src/position/tracker.py), the order manager
(src/orders/manager.py) together with its exchange adapters
(src/exchange/connector.py, src/exchange/paper_connector.py), the risk
manager (src/risk/manager.py) and the per-pair grid engine
(src/strategy/grid_engine.py).

Python floats are idealised as exact real numbers; the journal is modelled
by the status column of its order rows, which is the only part of the rows
the properties below refer to.
-/

noncomputable section

namespace GridBot

/-! ## Grid math (src/strategy/grid_math.py) -/

/-- Embedding of `compute_grid_levels(lower, upper, num_levels, spacing)`.
`np.linspace` yields `lower + i*(upper-lower)/(num_levels-1)` with the final
element exactly `upper`; `np.geomspace` yields
`lower*(upper/lower)^(i/(num_levels-1))` with exact endpoints.  An unknown
spacing raises `ValueError`. -/
def computeGridLevels (lower upper : ℝ) (num_levels : ℕ) (spacing : String) :
    Except String (List ℝ) :=
  if spacing = "arithmetic" then
    .ok ((List.range num_levels).map fun i : ℕ =>
      lower + (i : ℝ) * (upper - lower) / ((num_levels : ℝ) - 1))
  else if spacing = "geometric" then
    .ok ((List.range num_levels).map fun i : ℕ =>
      lower * (upper / lower) ^ ((i : ℝ) / ((num_levels : ℝ) - 1)))
  else
    .error ("Unknown spacing: " ++ spacing)

/-- Embedding of `determine_order_sides(levels, current_price)`: a level
priced below the reference is a buy, otherwise a sell. -/
def determineOrderSides (levels : List ℝ) (current_price : ℝ) :
    List (ℝ × String) :=
  levels.map fun price => (price, if price < current_price then "buy" else "sell")

/-- Embedding of `calculate_order_amount(order_size_usd, order_size_base,
price)`: returns `order_size_base` when it is set (regardless of
`order_size_usd`), else `order_size_usd / price`, else raises.  Python
float division by zero raises, which the zero-test models. -/
def calculateOrderAmount (order_size_usd order_size_base : Option ℝ)
    (price : ℝ) : Except String ℝ :=
  match order_size_base with
  | some b => .ok b
  | none =>
    match order_size_usd with
    | some u => if price = 0 then .error "division by zero" else .ok (u / price)
    | none => .error "Either order_size_usd or order_size_base must be set"

/-! ## Pooled multi-pair position tracker (src/position/tracker.py) -/

/-- Per-pair position state, mirroring `PairPositionState`. -/
structure PairPositionState where
  symbol : String := ""
  base_balance : ℝ := 0
  avg_entry_price : ℝ := 0
  realized_pnl : ℝ := 0
  unrealized_pnl : ℝ := 0
  trade_count : ℕ := 0

/-- Shared pool state, mirroring `PoolState`. -/
structure PoolState where
  available_usd : ℝ := 0
  secured_profits : ℝ := 0
  total_fees : ℝ := 0
  total_trade_count : ℕ := 0

/-- State of `MultiPairPositionTracker`: the configured symbols, the shared
pool and one `PairPositionState` per symbol. -/
structure TrackerState where
  symbols : Finset String
  pool : PoolState
  pairs : String → PairPositionState

/-- A fresh tracker: `available_usd = initial_usd`, every pair zeroed. -/
def TrackerState.init (symbols : Finset String) (initial_usd : ℝ) :
    TrackerState :=
  { symbols := symbols
    pool := { available_usd := initial_usd }
    pairs := fun s => { symbol := s } }

/-- Embedding of `MultiPairPositionTracker.record_fill`.  The buy branch
adds the bought amount, charges cost plus fee to the pool and re-averages
the entry price when the resulting base balance is positive; the sell
branch realises `(price - avg_entry)*amount - fee`, credits the proceeds
net of fee and moves a positive profit into the secured bucket; both
branches accumulate the fee and the trade counters. -/
def recordFill (tr : TrackerState) (symbol side : String)
    (amount price fee : ℝ) : TrackerState :=
  let pair := tr.pairs symbol
  let pair1 : PairPositionState :=
    if side = "buy" then
      let total_cost := pair.base_balance * pair.avg_entry_price
      let new_cost := amount * price
      let b := pair.base_balance + amount
      { pair with
        base_balance := b
        avg_entry_price :=
          if 0 < b then (total_cost + new_cost) / b else pair.avg_entry_price }
    else if side = "sell" then
      let profit := (price - pair.avg_entry_price) * amount - fee
      { pair with
        realized_pnl := pair.realized_pnl + profit
        base_balance := pair.base_balance - amount }
    else pair
  let pool1 : PoolState :=
    if side = "buy" then
      { tr.pool with
        available_usd := tr.pool.available_usd - (amount * price + fee) }
    else if side = "sell" then
      let profit := (price - pair.avg_entry_price) * amount - fee
      if 0 < profit then
        { tr.pool with
          available_usd := tr.pool.available_usd + (amount * price - fee) - profit
          secured_profits := tr.pool.secured_profits + profit }
      else
        { tr.pool with
          available_usd := tr.pool.available_usd + (amount * price - fee) }
    else tr.pool
  { tr with
    pool := { pool1 with
      total_fees := pool1.total_fees + fee
      total_trade_count := pool1.total_trade_count + 1 }
    pairs := Function.update tr.pairs symbol
      { pair1 with trade_count := pair.trade_count + 1 } }

/-- One recorded fill. -/
structure Fill where
  symbol : String
  side : String
  amount : ℝ
  price : ℝ
  fee : ℝ

/-- Folding a list of fills through `recordFill`. -/
def applyFills (tr : TrackerState) : List Fill → TrackerState
  | [] => tr
  | f :: fs => applyFills (recordFill tr f.symbol f.side f.amount f.price f.fee) fs

/-- The quantity named by the specification:
`pool.available + pool.secured + Σ base*avgEntry + Σ realized - pool.secured`. -/
def specLedger (tr : TrackerState) : ℝ :=
  tr.pool.available_usd + tr.pool.secured_profits
    + (∑ s ∈ tr.symbols, (tr.pairs s).base_balance * (tr.pairs s).avg_entry_price)
    + (∑ s ∈ tr.symbols, (tr.pairs s).realized_pnl)
    - tr.pool.secured_profits

/-- The quantity the tracker actually conserves:
`pool.available + pool.secured + Σ base*avgEntry - Σ realized`. -/
def ledger (tr : TrackerState) : ℝ :=
  tr.pool.available_usd + tr.pool.secured_profits
    + (∑ s ∈ tr.symbols, (tr.pairs s).base_balance * (tr.pairs s).avg_entry_price)
    - (∑ s ∈ tr.symbols, (tr.pairs s).realized_pnl)

/-- Total fee charged by the buy fills of a sequence. -/
def buyFees : List Fill → ℝ
  | [] => 0
  | f :: fs => (if f.side = "buy" then f.fee else 0) + buyFees fs

/-- Well-formedness of a fill sequence against a running tracker state:
every fill names a tracked pair, has side `buy` or `sell`, positive amount
and price, nonnegative fee, and every buy leaves its pair with a positive
base balance (no oversold pair is being bought back through zero). -/
def GoodFills (tr : TrackerState) : List Fill → Prop
  | [] => True
  | f :: fs =>
      f.symbol ∈ tr.symbols ∧ (f.side = "buy" ∨ f.side = "sell")
      ∧ 0 < f.amount ∧ 0 < f.price ∧ 0 ≤ f.fee
      ∧ (f.side = "buy" →
          0 < ((recordFill tr f.symbol f.side f.amount f.price f.fee).pairs
                f.symbol).base_balance)
      ∧ GoodFills (recordFill tr f.symbol f.side f.amount f.price f.fee) fs

/-! ## Order manager (src/orders/manager.py) and exchange adapters -/

/-- State of `OrderManager`: the live-order id set `_open_order_ids` and
the journal's order rows, modelled by their status column. -/
structure OMState where
  liveIds : Finset String
  journal : String → Option String

/-- Journal write `_order_repo.update_status(order_id, status)`. -/
def OMState.updateStatus (om : OMState) (order_id status : String) : OMState :=
  { om with journal := fun i => if i = order_id then some status else om.journal i }

/-- Embedding of `OrderManager.cancel_order(order_id, symbol)`: the adapter
call's boolean result is passed in; on success the row is marked cancelled
and the id discarded from the live set, otherwise nothing changes. -/
def cancelOrder (om : OMState) (order_id : String) (exchangeSuccess : Bool) :
    Bool × OMState :=
  if exchangeSuccess then
    (true, { om.updateStatus order_id "cancelled" with
             liveIds := om.liveIds.erase order_id })
  else
    (false, om)

/-- Venue response to a cancel request seen by the live connector. -/
inductive VenueCancelOutcome where
  | ok
  | orderNotFound
deriving DecidableEq

/-- Embedding of `CoinbaseConnector.cancel_order`: a successful venue
cancel returns true; `ccxt.OrderNotFound` is caught, a warning is logged
and false is returned. -/
def coinbaseCancelOrder : VenueCancelOutcome → Bool
  | .ok => true
  | .orderNotFound => false

/-- State of `PaperConnector`: its simulated order book, modelled by the
status field of each order dict. -/
structure PaperState where
  orders : String → Option String

/-- Embedding of `PaperConnector.cancel_order`: an id present in the book
is marked cancelled and true is returned; an unknown id returns false. -/
def paperCancelOrder (ps : PaperState) (order_id : String) :
    Bool × PaperState :=
  match ps.orders order_id with
  | some _ =>
      (true, { ps with orders := fun i =>
        if i = order_id then some "cancelled" else ps.orders i })
  | none => (false, ps)

/-- Embedding of `OrderManager.reconcile_with_exchange(symbol)`: every live
id absent from the venue's open-order set is marked cancelled in the
journal, then the live set is replaced by the venue's set.  The loop of
independent single-row updates is written pointwise. -/
def reconcileWithExchange (om : OMState) (venueIds : Finset String) : OMState :=
  let stale := om.liveIds \ venueIds
  { liveIds := venueIds
    journal := fun oid => if oid ∈ stale then some "cancelled" else om.journal oid }

/-- Embedding of `OrderManager.place_grid_order` as far as the grid engine
observes it: the venue id returned by the adapter is journalled with
status open and added to the live set. -/
def placeGridOrder (om : OMState) (newId : String) : OMState :=
  { om.updateStatus newId "open" with liveIds := insert newId om.liveIds }

/-! ## Risk manager (src/risk/manager.py) -/

/-- The risk-related configuration, mirroring `RiskConfig`. -/
structure RiskConfig where
  max_position_usd : ℝ := 5000
  max_position_usd_per_pair : ℝ := 200
  max_open_orders : ℕ := 200
  stop_loss_pct : ℝ := 5
  take_profit_pct : ℝ := 3
  max_drawdown_pct : ℝ := 10

/-- Mutable state of `RiskManager`: the running peak equity, the global
halt bit and the per-pair halt set. -/
structure RiskState where
  peak_equity : ℝ := 0
  is_halted : Bool := false
  halted_pairs : Finset String := ∅

/-- A freshly constructed risk manager. -/
def RiskState.init : RiskState := {}

/-- Embedding of `MultiPairPositionTracker.can_afford_buy`. -/
def canAffordBuy (tr : TrackerState) (cost_usd : ℝ) : Bool :=
  cost_usd ≤ tr.pool.available_usd

/-- Embedding of `MultiPairPositionTracker.total_base_value_usd`. -/
def totalBaseValueUsd (tr : TrackerState) : ℝ :=
  ∑ s ∈ tr.symbols, (tr.pairs s).base_balance * (tr.pairs s).avg_entry_price

/-- Embedding of `RiskManager.can_place_order(symbol, side, price,
amount=0.0)`.  `openOrderCount` is the order manager's live count,
`trendAllowsBuy` the optional trend filter's `should_allow_buy`, and the
fear-greed gate is active only when both a provider reading and a
configured threshold are supplied, mirroring the optional collaborators. -/
def canPlaceOrder (cfg : RiskConfig) (st : RiskState) (openOrderCount : ℕ)
    (tracker : TrackerState) (trendAllowsBuy : Option (String → Bool))
    (fearGreedIndex : Option (Option ℤ)) (fgThreshold : Option ℤ)
    (symbol side : String) (price : ℝ) (amount : ℝ := 0) : Bool :=
  if st.is_halted then false
  else if symbol ∈ st.halted_pairs then false
  else if cfg.max_open_orders ≤ openOrderCount then false
  else if side = "buy" ∧
      (match trendAllowsBuy with
       | some allow => !(allow symbol)
       | none => false : Bool) = true then false
  else if side = "buy" ∧
      (match fearGreedIndex, fgThreshold with
       | some (some v), some thr => decide (v ≤ thr)
       | _, _ => false : Bool) = true then false
  else if side = "buy" then
    let cost := if 0 < amount then amount * price else 0
    if 0 < cost ∧ canAffordBuy tracker cost = false then false
    else
      let pair := tracker.pairs symbol
      if cfg.max_position_usd_per_pair ≤ pair.base_balance * pair.avg_entry_price
      then false
      else if cfg.max_position_usd ≤ totalBaseValueUsd tracker then false
      else true
  else true

/-- Embedding of `RiskManager.check_stop_loss(symbol, current_price,
lower_grid)`: on trigger the symbol joins the per-pair halt set. -/
def checkStopLoss (cfg : RiskConfig) (st : RiskState) (symbol : String)
    (current_price lower_grid : ℝ) : Bool × RiskState :=
  let stop_price := lower_grid * (1 - cfg.stop_loss_pct / 100)
  if current_price ≤ stop_price then
    (true, { st with halted_pairs := insert symbol st.halted_pairs })
  else (false, st)

/-- Embedding of `RiskManager.check_take_profit(symbol, current_price,
upper_grid)`: on trigger the symbol joins the per-pair halt set. -/
def checkTakeProfit (cfg : RiskConfig) (st : RiskState) (symbol : String)
    (current_price upper_grid : ℝ) : Bool × RiskState :=
  let tp_price := upper_grid * (1 + cfg.take_profit_pct / 100)
  if tp_price ≤ current_price then
    (true, { st with halted_pairs := insert symbol st.halted_pairs })
  else (false, st)

/-- Embedding of `RiskManager.check_drawdown(current_equity)`: the peak is
first raised to `max(peak, current_equity)`; with a positive peak, a
drawdown of at least `max_drawdown_pct` percent sets the global halt bit
and returns true. -/
def checkDrawdown (cfg : RiskConfig) (st : RiskState) (current_equity : ℝ) :
    Bool × RiskState :=
  let st1 := { st with peak_equity := max st.peak_equity current_equity }
  if 0 < st1.peak_equity then
    if cfg.max_drawdown_pct ≤
        (st1.peak_equity - current_equity) / st1.peak_equity * 100 then
      (true, { st1 with is_halted := true })
    else (false, st1)
  else (false, st1)

/-- Embedding of `RiskManager.reset_halt`: clears the global bit and the
per-pair halt set, and nothing else. -/
def resetHalt (st : RiskState) : RiskState :=
  { st with is_halted := false, halted_pairs := ∅ }

/-- Folding `check_drawdown` over a sequence of equity readings, keeping
the state and discarding the returned booleans. -/
def runDrawdownCalls (cfg : RiskConfig) (st : RiskState) : List ℝ → RiskState
  | [] => st
  | e :: es => runDrawdownCalls cfg (checkDrawdown cfg st e).2 es

/-! ## Grid engine (src/strategy/grid_engine.py)

The engine invokes `RiskManager.can_place_order` through Python's dynamic
call mechanism, so the embedding keeps the call's positional-argument
binding explicit: the method has three required parameters
`(symbol, side, price)` plus `amount` defaulting to `0.0`, and a call that
does not supply between three and four positional arguments raises
`TypeError`. -/

/-- A Python runtime value as passed positionally at the call sites that
matter here: a string or a float. -/
inductive PyVal where
  | pstr (s : String)
  | pnum (x : ℝ)

/-- A Python exception escaping one of the embedded functions. -/
inductive PyErr where
  | typeError
  | valueError (msg : String)

/-- Positional-argument binding and execution of a call to
`RiskManager.can_place_order`.  Three arguments bind
`(symbol, side, price)` with `amount = 0.0`, four also bind `amount`;
anything else fails to bind and raises `TypeError`.  The verified call
sites never pass payloads of the wrong dynamic type, so ill-typed
payload lists are not distinguished from arity errors. -/
def canPlaceOrderCall (cfg : RiskConfig) (st : RiskState)
    (openOrderCount : ℕ) (tracker : TrackerState)
    (trendAllowsBuy : Option (String → Bool))
    (fearGreedIndex : Option (Option ℤ)) (fgThreshold : Option ℤ) :
    List PyVal → Except PyErr Bool
  | [.pstr symbol, .pstr side, .pnum price] =>
      .ok (canPlaceOrder cfg st openOrderCount tracker trendAllowsBuy
        fearGreedIndex fgThreshold symbol side price 0)
  | [.pstr symbol, .pstr side, .pnum price, .pnum amount] =>
      .ok (canPlaceOrder cfg st openOrderCount tracker trendAllowsBuy
        fearGreedIndex fgThreshold symbol side price amount)
  | _ => .error .typeError

/-- One grid level, mirroring the `GridLevel` dataclass. -/
structure GridLevel where
  index : ℕ
  price : ℝ
  side : String
  status : String := "pending"
  exchange_order_id : Option String := none

/-- The grid configuration fields the engine reads, mirroring
`GridConfig`. -/
structure GridConfig where
  symbol : String
  lower_price : ℝ
  upper_price : ℝ
  num_levels : ℕ
  spacing : String
  order_size_usd : Option ℝ
  order_size_base : Option ℝ

/-- The collaborators `initialize_grid` consults while admitting levels:
the risk manager's configuration and state and everything
`can_place_order` reads through it. -/
structure EngineEnv where
  risk_config : RiskConfig
  risk : RiskState
  tracker : TrackerState
  trendAllowsBuy : Option (String → Bool)
  fearGreedIndex : Option (Option ℤ)
  fgThreshold : Option ℤ

/-- Rounding to `n` decimal places, idealising Python's `round(x, n)`
(which differs only at exact decimal ties, where Python rounds half to
even). -/
def roundTo (n : ℕ) (x : ℝ) : ℝ :=
  (round (x * 10 ^ n) : ℤ) / 10 ^ n

/-- The placement loop of `GridEngine.initialize_grid`: for each level in
order, the engine calls `self._risk_mgr.can_place_order(level.side,
level.price)` — two positional arguments — skips the level when admission
denies it, otherwise computes the order amount and places the order,
marking the level `order_placed`.  A `TypeError` or `ValueError` escaping
any step aborts the whole loop.  Returns the processed levels, the order
manager state and the number placed. -/
def initializeGridLoop (env : EngineEnv) (cfg : GridConfig) (idGen : ℕ → String) :
    List GridLevel → OMState → ℕ → ℕ →
    Except PyErr (List GridLevel × OMState × ℕ)
  | [], om, _, placed => .ok ([], om, placed)
  | level :: rest, om, nextId, placed =>
    match canPlaceOrderCall env.risk_config env.risk om.liveIds.card
        env.tracker env.trendAllowsBuy env.fearGreedIndex env.fgThreshold
        [.pstr level.side, .pnum level.price] with
    | .error e => .error e
    | .ok false =>
        match initializeGridLoop env cfg idGen rest om nextId placed with
        | .error e => .error e
        | .ok (ls, om1, p) => .ok (level :: ls, om1, p)
    | .ok true =>
        match calculateOrderAmount cfg.order_size_usd cfg.order_size_base
            level.price with
        | .error m => .error (.valueError m)
        | .ok _amount =>
            let oid := idGen nextId
            let om1 := placeGridOrder om oid
            let level1 := { level with
              exchange_order_id := some oid, status := "order_placed" }
            match initializeGridLoop env cfg idGen rest om1 (nextId + 1)
                (placed + 1) with
            | .error e => .error e
            | .ok (ls, om2, p) => .ok (level1 :: ls, om2, p)

/-- Embedding of `GridEngine.initialize_grid`: compute the level prices,
assign sides against the ticker's last price, build the pending levels
with prices rounded to two decimals, then run the placement loop.
`tickerLast` is the awaited ticker result and `idGen` supplies the venue
order ids the adapter would return. -/
def initializeGrid (env : EngineEnv) (cfg : GridConfig) (om : OMState)
    (idGen : ℕ → String) (tickerLast : ℝ) :
    Except PyErr (List GridLevel × OMState × ℕ) :=
  match computeGridLevels cfg.lower_price cfg.upper_price cfg.num_levels
      cfg.spacing with
  | .error m => .error (.valueError m)
  | .ok prices =>
      let sides := determineOrderSides prices tickerLast
      let levels := sides.enum.map fun is =>
        { index := is.1, price := roundTo 2 is.2.1, side := is.2.2 : GridLevel }
      initializeGridLoop env cfg idGen levels om 0 0

/-! ## Theorems -/

/-- C4 (counterexample): with BOTH `order_size_usd` and `order_size_base`
set — so not exactly one of them is present — `calculate_order_amount`
does not raise `InvalidConfig`: it silently returns `order_size_base`,
contradicting the claimed if-and-only-if error condition. -/
theorem calculateOrderAmount_both_set_no_error :
    calculateOrderAmount (some 100) (some (1/2)) 50000 = .ok (1/2) := rfl

/-- C4 (amended): `calculate_order_amount` raises the configuration error
iff NEITHER size is set; whenever `order_size_base` is set it is returned
(even when `order_size_usd` is also set), and otherwise a set
`order_size_usd` yields `order_size_usd / price`. -/
theorem calculateOrderAmount_spec (usd base : Option ℝ) (price : ℝ) :
    (calculateOrderAmount usd base price =
        .error "Either order_size_usd or order_size_base must be set" ↔
      usd = none ∧ base = none)
    ∧ (∀ b, base = some b → calculateOrderAmount usd base price = .ok b)
    ∧ (base = none → ∀ u, usd = some u → price ≠ 0 →
        calculateOrderAmount usd base price = .ok (u / price)) := by
  refine ⟨?_, ?_, ?_⟩
  · rcases base with _ | b <;> rcases usd with _ | u
    all_goals simp [calculateOrderAmount]
    all_goals split_ifs <;> simp
  · intro b hb; subst hb; rfl
  · intro hbase u hu hp; subst hbase; subst hu
    simp [calculateOrderAmount, hp]

/-- C4 (witness): the amended statement evaluated at a quote-sized
configuration. -/
theorem calculateOrderAmount_spec_witness :
    calculateOrderAmount (some 100) none 50000 = .ok ((100 : ℝ) / 50000) :=
  (calculateOrderAmount_spec (some 100) none 50000).2.2 rfl 100 rfl (by norm_num)

/-- C3 (counterexample): when the venue reports not-found, the live
connector returns false, so `OrderManager.cancel_order` returns false and
leaves the journal row open — it does NOT treat not-found as already
cancelled with a true return. -/
theorem cancelOrder_notFound_counterexample :
    let om : OMState :=
      { liveIds := {"ord1"},
        journal := fun i => if i = "ord1" then some "open" else none }
    (cancelOrder om "ord1" (coinbaseCancelOrder .orderNotFound)).1 = false
    ∧ (cancelOrder om "ord1" (coinbaseCancelOrder .orderNotFound)).2 = om := by
  exact ⟨rfl, rfl⟩

/-- C3 (amended): a venue not-found report makes `cancel_order` return
false (after the adapter's warning) with the manager state untouched; and
whenever `cancel_order` returns true it marks the journal row cancelled
and removes the id from the live set. -/
theorem cancelOrder_spec (om : OMState) (order_id : String) :
    cancelOrder om order_id (coinbaseCancelOrder .orderNotFound) = (false, om)
    ∧ ∀ success : Bool, (cancelOrder om order_id success).1 = true →
        (cancelOrder om order_id success).2.journal order_id = some "cancelled"
        ∧ order_id ∉ (cancelOrder om order_id success).2.liveIds := by
  refine ⟨rfl, ?_⟩
  intro success h
  cases success with
  | false => simp [cancelOrder] at h
  | true =>
      refine ⟨?_, ?_⟩
      · simp [cancelOrder, OMState.updateStatus]
      · simp [cancelOrder]

/-- C3 (witness): the amended statement's success branch evaluated on a
concrete manager state. -/
theorem cancelOrder_spec_witness :
    (cancelOrder
        { liveIds := {"ord1"},
          journal := fun i => if i = "ord1" then some "open" else none }
        "ord1" true).2.journal "ord1" = some "cancelled"
    ∧ "ord1" ∉ (cancelOrder
        { liveIds := {"ord1"},
          journal := fun i => if i = "ord1" then some "open" else none }
        "ord1" true).2.liveIds :=
  (cancelOrder_spec
    { liveIds := {"ord1"},
      journal := fun i => if i = "ord1" then some "open" else none }
    "ord1").2 true rfl

/-- C10: the paper adapter's cancel returns false exactly for an unknown
order id, and whenever the adapter's cancel returns false,
`OrderManager.cancel_order` returns false and leaves the whole manager
state — journal row and live set — unchanged. -/
theorem cancelOrder_adapter_false_spec (om : OMState) (ps : PaperState)
    (order_id : String) :
    ((paperCancelOrder ps order_id).1 = false ↔ ps.orders order_id = none)
    ∧ ((paperCancelOrder ps order_id).1 = false →
        cancelOrder om order_id (paperCancelOrder ps order_id).1 = (false, om)) := by
  constructor
  · cases h : ps.orders order_id <;> simp [paperCancelOrder, h]
  · intro h; rw [h]; rfl

/-- C10 (witness): cancelling an id the paper book never saw. -/
theorem cancelOrder_adapter_false_witness :
    cancelOrder { liveIds := {"ghost"}, journal := fun _ => none } "ghost"
      (paperCancelOrder { orders := fun _ => none } "ghost").1
      = (false, { liveIds := {"ghost"}, journal := fun _ => none }) :=
  (cancelOrder_adapter_false_spec
    { liveIds := {"ghost"}, journal := fun _ => none }
    { orders := fun _ => none } "ghost").2 rfl

/-- C6: reconciliation marks every live id missing from the venue's
open-order set as cancelled in the journal and drops it from the live set,
after which the live set equals the venue's set exactly; hence a second
reconciliation against an unchanged venue leaves the live set identical. -/
theorem reconcileWithExchange_spec (om : OMState) (venueIds : Finset String) :
    (∀ oid, oid ∈ om.liveIds → oid ∉ venueIds →
        (reconcileWithExchange om venueIds).journal oid = some "cancelled"
        ∧ oid ∉ (reconcileWithExchange om venueIds).liveIds)
    ∧ (reconcileWithExchange om venueIds).liveIds = venueIds
    ∧ (reconcileWithExchange (reconcileWithExchange om venueIds) venueIds).liveIds
        = (reconcileWithExchange om venueIds).liveIds := by
  refine ⟨?_, rfl, rfl⟩
  intro oid h1 h2
  constructor
  · simp [reconcileWithExchange, Finset.mem_sdiff, h1, h2]
  · simpa [reconcileWithExchange] using h2

/-- C6 (witness): a stale id `c` vanishes, the live set becomes the
venue's set. -/
theorem reconcileWithExchange_spec_witness :
    (reconcileWithExchange
        { liveIds := {"a", "c"}, journal := fun _ => some "open" }
        {"a", "b"}).journal "c" = some "cancelled"
    ∧ "c" ∉ (reconcileWithExchange
        { liveIds := {"a", "c"}, journal := fun _ => some "open" }
        {"a", "b"}).liveIds :=
  (reconcileWithExchange_spec
    { liveIds := {"a", "c"}, journal := fun _ => some "open" }
    {"a", "b"}).1 "c" (by decide) (by decide)

/-- C7: `check_drawdown` first raises the stored peak to
`max(previous peak, totalEquity)`; with that (positive) running peak it
returns true iff `(peak - totalEquity)/peak * 100 ≥ maxDrawdownPct`, and
whenever it returns true the global halt bit is set. -/
theorem checkDrawdown_spec (cfg : RiskConfig) (st : RiskState)
    (current_equity : ℝ) (hpeak : 0 < max st.peak_equity current_equity) :
    (checkDrawdown cfg st current_equity).2.peak_equity
        = max st.peak_equity current_equity
    ∧ ((checkDrawdown cfg st current_equity).1 = true ↔
        cfg.max_drawdown_pct ≤
          (max st.peak_equity current_equity - current_equity)
            / max st.peak_equity current_equity * 100)
    ∧ ((checkDrawdown cfg st current_equity).1 = true →
        (checkDrawdown cfg st current_equity).2.is_halted = true) := by
  unfold checkDrawdown
  dsimp only
  split_ifs with h1
  · exact ⟨rfl, by simp [h1], fun _ => rfl⟩
  · exact ⟨rfl, by simp [h1], fun h => nomatch h⟩

/-- C7 (witness): peak 10000, equity 8900, threshold 10 percent — an 11
percent drawdown trips the halt. -/
theorem checkDrawdown_spec_witness :
    (checkDrawdown { max_drawdown_pct := 10 } { peak_equity := 10000 }
        8900).2.peak_equity = max (10000 : ℝ) 8900
    ∧ ((checkDrawdown { max_drawdown_pct := 10 } { peak_equity := 10000 }
        8900).1 = true ↔
        (10 : ℝ) ≤ (max (10000 : ℝ) 8900 - 8900) / max (10000 : ℝ) 8900 * 100)
    ∧ ((checkDrawdown { max_drawdown_pct := 10 } { peak_equity := 10000 }
        8900).1 = true →
        (checkDrawdown { max_drawdown_pct := 10 } { peak_equity := 10000 }
        8900).2.is_halted = true) :=
  checkDrawdown_spec { max_drawdown_pct := 10 } { peak_equity := 10000 } 8900
    (by norm_num)

/-- The state returned by `check_drawdown` always stores
`max(previous peak, current equity)` as the peak. -/
theorem checkDrawdown_peak (cfg : RiskConfig) (st : RiskState) (e : ℝ) :
    (checkDrawdown cfg st e).2.peak_equity = max st.peak_equity e := by
  unfold checkDrawdown
  dsimp only
  split_ifs <;> rfl

/-- Folding `check_drawdown` over readings folds `max` over the peak. -/
theorem runDrawdownCalls_peak (cfg : RiskConfig) :
    ∀ (es : List ℝ) (st : RiskState),
      (runDrawdownCalls cfg st es).peak_equity = es.foldl max st.peak_equity := by
  intro es
  induction es with
  | nil => intro st; rfl
  | cons e es ih =>
      intro st
      rw [runDrawdownCalls, ih, List.foldl_cons, checkDrawdown_peak]

/-- C9: starting from a fresh risk manager, after running
`check_drawdown` over the readings `e1 … en` the stored peak equals
`max(0, e1, …, en)`; each single call can only raise the peak; and
`check_stop_loss`, `check_take_profit` and `reset_halt` never change it. -/
theorem riskManager_peak_spec :
    (∀ (cfg : RiskConfig) (es : List ℝ),
        (runDrawdownCalls cfg RiskState.init es).peak_equity = es.foldl max 0)
    ∧ (∀ (cfg : RiskConfig) (st : RiskState) (e : ℝ),
        st.peak_equity ≤ (checkDrawdown cfg st e).2.peak_equity)
    ∧ (∀ (cfg : RiskConfig) (st : RiskState) (symbol : String) (p l : ℝ),
        (checkStopLoss cfg st symbol p l).2.peak_equity = st.peak_equity)
    ∧ (∀ (cfg : RiskConfig) (st : RiskState) (symbol : String) (p u : ℝ),
        (checkTakeProfit cfg st symbol p u).2.peak_equity = st.peak_equity)
    ∧ (∀ st : RiskState, (resetHalt st).peak_equity = st.peak_equity) := by
  refine ⟨?_, ?_, ?_, ?_, ?_⟩
  · intro cfg es; exact runDrawdownCalls_peak cfg es RiskState.init
  · intro cfg st e; rw [checkDrawdown_peak]; exact le_max_left _ _
  · intro cfg st symbol p l; unfold checkStopLoss; dsimp only; split_ifs <;> rfl
  · intro cfg st symbol p u; unfold checkTakeProfit; dsimp only; split_ifs <;> rfl
  · intro st; rfl

/-- The placement loop aborts with `TypeError` on ANY nonempty level list:
the engine's admission call `can_place_order(level.side, level.price)`
supplies two positional arguments to a method whose three required
parameters are `(symbol, side, price)`, so the binding of `price` fails
before the body can run. -/
theorem initializeGridLoop_nonempty_typeError (env : EngineEnv)
    (cfg : GridConfig) (idGen : ℕ → String) (level : GridLevel)
    (rest : List GridLevel) (om : OMState) (nextId placed : ℕ) :
    initializeGridLoop env cfg idGen (level :: rest) om nextId placed
      = .error .typeError := rfl

/-- C2: with the engine's own symbol in the per-pair halt set, admission
is never consulted with that symbol: `initialize_grid` calls
`can_place_order(level.side, level.price)` — omitting the symbol — which
raises `TypeError` at the first level instead of rejecting the halted
pair through the documented check. -/
theorem initializeGrid_halted_pair_typeError :
    let env : EngineEnv :=
      { risk_config := {}
        risk := { halted_pairs := {"BTC/USD"} }
        tracker := TrackerState.init {"BTC/USD"} 1000
        trendAllowsBuy := none
        fearGreedIndex := none
        fgThreshold := none }
    let cfg : GridConfig :=
      { symbol := "BTC/USD"
        lower_price := 100
        upper_price := 200
        num_levels := 2
        spacing := "arithmetic"
        order_size_usd := some 100
        order_size_base := none }
    "BTC/USD" ∈ env.risk.halted_pairs
    ∧ initializeGrid env cfg { liveIds := ∅, journal := fun _ => none }
        (fun i => toString i) 150 = .error .typeError := by
  exact ⟨by decide, rfl⟩

/-- C8: with `maxOpenOrders = 5`, an empty live set and a ten-level grid,
`initialize_grid` does not place five orders and leave five levels
pending: the two-positional-argument admission call raises `TypeError`
at the first level and the whole initialization aborts with an error. -/
theorem initializeGrid_maxOpenOrders_typeError :
    let env : EngineEnv :=
      { risk_config := { max_open_orders := 5 }
        risk := {}
        tracker := TrackerState.init {"BTC/USD"} 10000
        trendAllowsBuy := none
        fearGreedIndex := none
        fgThreshold := none }
    let cfg : GridConfig :=
      { symbol := "BTC/USD"
        lower_price := 100
        upper_price := 200
        num_levels := 10
        spacing := "arithmetic"
        order_size_usd := some 100
        order_size_base := none }
    env.risk_config.max_open_orders = 5
    ∧ cfg.num_levels = 10
    ∧ (∅ : Finset String).card = 0
    ∧ initializeGrid env cfg { liveIds := ∅, journal := fun _ => none }
        (fun i => toString i) 150 = .error .typeError := by
  exact ⟨rfl, rfl, rfl, rfl⟩

/-- Summing a projection after updating the pair map at one tracked
symbol changes the sum by the difference at that symbol. -/
theorem sum_proj_update (s : Finset String) (f : String → PairPositionState)
    (G : PairPositionState → ℝ) (i : String) (hi : i ∈ s)
    (b : PairPositionState) :
    (∑ x ∈ s, G (Function.update f i b x))
      = (∑ x ∈ s, G (f x)) - G (f i) + G b := by
  have h1 : ∀ x ∈ s, G (Function.update f i b x)
      = Function.update (fun y => G (f y)) i (G b) x := by
    intro x _
    by_cases h : x = i <;> simp [Function.update, h]
  rw [Finset.sum_congr rfl h1, Finset.sum_update_of_mem hi,
    Finset.sum_eq_sum_diff_singleton_add hi fun y => G (f y)]
  ring

/-- A buy adds the bought amount to the pair's base balance. -/
theorem recordFill_buy_base (tr : TrackerState) (symbol : String)
    (amount price fee : ℝ) :
    ((recordFill tr symbol "buy" amount price fee).pairs symbol).base_balance
      = (tr.pairs symbol).base_balance + amount := by
  simp [recordFill, Function.update_same]

/-- A buy that leaves the pair's base balance positive moves the ledger
down by exactly the fee. -/
theorem ledger_recordFill_buy (tr : TrackerState) (symbol : String)
    (amount price fee : ℝ) (hmem : symbol ∈ tr.symbols)
    (hpos : 0 < (tr.pairs symbol).base_balance + amount) :
    ledger (recordFill tr symbol "buy" amount price fee) = ledger tr - fee := by
  have hne : (tr.pairs symbol).base_balance + amount ≠ 0 := ne_of_gt hpos
  unfold ledger recordFill
  simp only [if_pos hpos]
  rw [sum_proj_update tr.symbols tr.pairs
      (fun st => st.base_balance * st.avg_entry_price) symbol hmem,
    sum_proj_update tr.symbols tr.pairs
      (fun st => st.realized_pnl) symbol hmem]
  simp only []
  field_simp
  ring

/-- A sell leaves the ledger unchanged: the realised profit credited to
the pool (and, when positive, shifted into the secured bucket) is
subtracted back out through the realised-P&L sum. -/
theorem ledger_recordFill_sell (tr : TrackerState) (symbol : String)
    (amount price fee : ℝ) (hmem : symbol ∈ tr.symbols) :
    ledger (recordFill tr symbol "sell" amount price fee) = ledger tr := by
  unfold ledger recordFill
  have hsb : ¬ ("sell" : String) = "buy" := by decide
  have hss : ("sell" : String) = "sell" := rfl
  simp only [if_neg hsb, if_pos hss]
  split_ifs with h
  all_goals
    rw [sum_proj_update tr.symbols tr.pairs
        (fun st => st.base_balance * st.avg_entry_price) symbol hmem,
      sum_proj_update tr.symbols tr.pairs
        (fun st => st.realized_pnl) symbol hmem]
  all_goals simp only []
  all_goals ring

/-- Across a well-formed fill sequence the ledger drops by exactly the
fees charged on buys. -/
theorem ledger_applyFills (fs : List Fill) : ∀ tr, GoodFills tr fs →
    ledger (applyFills tr fs) = ledger tr - buyFees fs := by
  induction fs with
  | nil => intro tr _; simp [applyFills, buyFees]
  | cons f fs ih =>
      intro tr hg
      rw [GoodFills] at hg
      obtain ⟨hmem, hside, -, -, -, hbuy, hrest⟩ := hg
      rw [applyFills, ih _ hrest, buyFees]
      rcases hside with h | h
      · rw [h] at hbuy ⊢
        have hpos : 0 < (tr.pairs f.symbol).base_balance + f.amount := by
          have := hbuy rfl
          rwa [recordFill_buy_base] at this
        rw [ledger_recordFill_buy tr f.symbol f.amount f.price f.fee hmem hpos]
        have hif : (if ("buy" : String) = "buy" then f.fee else 0) = f.fee :=
          if_pos rfl
        rw [hif]
        ring
      · rw [h]
        rw [ledger_recordFill_sell tr f.symbol f.amount f.price f.fee hmem]
        have hif : (if ("sell" : String) = "buy" then f.fee else 0) = 0 :=
          if_neg (by decide)
        rw [hif]
        ring

/-- C1 (counterexample): one buy (1 unit at 100, fee 0) followed by one
profitable sell (1 unit at 110, fee 0) out of a 1000-quote pool.  The
specification's quantity `pool.available + pool.secured + Σ base·avgEntry
+ Σ realized − pool.secured` evaluates to 1010 while `initialBalanceQuote
− totalFees` is 1000: the two differ by 1 percent, beyond both the exact
reading and the 1e−6 relative-error reading of the claim. -/
theorem tracker_specLedger_counterexample :
    let tr := applyFills (TrackerState.init {"BTC/USD"} 1000)
      [⟨"BTC/USD", "buy", 1, 100, 0⟩, ⟨"BTC/USD", "sell", 1, 110, 0⟩]
    specLedger tr = 1010 ∧ tr.pool.total_fees = 0
    ∧ specLedger tr ≠ 1000 - tr.pool.total_fees
    ∧ (1000 - tr.pool.total_fees) * (1 / 1000000)
        < |specLedger tr - (1000 - tr.pool.total_fees)| := by
  have hsb : ¬ ("sell" : String) = "buy" := by decide
  refine ⟨?_, ?_, ?_, ?_⟩ <;>
    norm_num [applyFills, recordFill, specLedger, TrackerState.init,
      Function.update_same, Finset.sum_singleton, if_neg hsb]

/-- C1 (amended): over exact arithmetic, for every well-formed fill
sequence from a fresh tracker (each fill on a tracked pair, side buy or
sell, positive amount and price, nonnegative fee, every buy leaving its
pair's base balance positive), the conserved quantity is
`pool.available + pool.secured + Σ base·avgEntry − Σ realized`, and it
equals `initialBalanceQuote` minus the fees of the buy fills — each
sell's fee is already netted inside its realised profit. -/
theorem tracker_ledger_spec (symbols : Finset String) (initial_usd : ℝ)
    (fs : List Fill)
    (h : GoodFills (TrackerState.init symbols initial_usd) fs) :
    ledger (applyFills (TrackerState.init symbols initial_usd) fs)
      = initial_usd - buyFees fs := by
  rw [ledger_applyFills fs _ h]
  have h0 : ledger (TrackerState.init symbols initial_usd) = initial_usd := by
    simp [ledger, TrackerState.init]
  rw [h0]

/-- C1 (witness): the amended conservation law evaluated on a concrete
buy-then-sell sequence with fees. -/
theorem tracker_ledger_spec_witness :
    ledger (applyFills (TrackerState.init {"BTC/USD"} 1000)
      [⟨"BTC/USD", "buy", 1, 100, 2⟩, ⟨"BTC/USD", "sell", 1, 110, 3⟩])
      = 1000 - buyFees
          [⟨"BTC/USD", "buy", 1, 100, 2⟩, ⟨"BTC/USD", "sell", 1, 110, 3⟩] := by
  refine tracker_ledger_spec {"BTC/USD"} 1000 _ ?_
  refine ⟨by simp [TrackerState.init], Or.inl rfl, by norm_num, by norm_num,
    by norm_num, ?_, ?_⟩
  · intro _
    rw [recordFill_buy_base]
    norm_num [TrackerState.init]
  · refine ⟨by simp [recordFill, TrackerState.init], Or.inr rfl, by norm_num,
      by norm_num, by norm_num, ?_, trivial⟩
    intro hcon
    exact absurd hcon (by decide)

/-- C5: for `0 < lower < upper` and `n ≥ 2`, `compute_grid_levels`
returns, for each spacing, a strictly increasing list of `n` prices whose
first element is `lower` and last is `upper`; arithmetic prices are
`lower + i*(upper-lower)/(n-1)`, geometric prices are
`lower*(upper/lower)^(i/(n-1))` with a constant ratio between
consecutive prices. -/
theorem computeGridLevels_spec (lower upper : ℝ) (n : ℕ)
    (hl : 0 < lower) (hlu : lower < upper) (hn : 2 ≤ n) :
    (∃ L : List ℝ, computeGridLevels lower upper n "arithmetic" = .ok L
      ∧ L.length = n ∧ L.Pairwise (· < ·)
      ∧ (∀ i, i < n →
          L[i]? = some (lower + (i : ℝ) * (upper - lower) / ((n : ℝ) - 1)))
      ∧ L.head? = some lower ∧ L.getLast? = some upper)
    ∧ (∃ L : List ℝ, computeGridLevels lower upper n "geometric" = .ok L
      ∧ L.length = n ∧ L.Pairwise (· < ·)
      ∧ (∀ i, i < n →
          L[i]? = some (lower * (upper / lower) ^ ((i : ℝ) / ((n : ℝ) - 1))))
      ∧ L.head? = some lower ∧ L.getLast? = some upper
      ∧ (∀ i x y, L[i]? = some x → L[i + 1]? = some y →
          y = x * (upper / lower) ^ ((1 : ℝ) / ((n : ℝ) - 1)))) := by
  have h2n : (2 : ℝ) ≤ (n : ℝ) := by exact_mod_cast hn
  have hd : 0 < (n : ℝ) - 1 := by linarith
  have hdne : ((n : ℝ) - 1) ≠ 0 := ne_of_gt hd
  have hlne : lower ≠ 0 := ne_of_gt hl
  have hr1 : 1 < upper / lower := (one_lt_div hl).mpr hlu
  have hr0 : 0 < upper / lower := lt_trans one_pos hr1
  have h1n : 1 ≤ n := le_trans one_le_two hn
  have hcast : ((n - 1 : ℕ) : ℝ) = (n : ℝ) - 1 := by
    simpa using Nat.cast_sub h1n (R := ℝ)
  have hA : computeGridLevels lower upper n "arithmetic"
      = .ok ((List.range n).map fun i : ℕ =>
          lower + (i : ℝ) * (upper - lower) / ((n : ℝ) - 1)) := by
    unfold computeGridLevels
    rw [if_pos rfl]
  have hG : computeGridLevels lower upper n "geometric"
      = .ok ((List.range n).map fun i : ℕ =>
          lower * (upper / lower) ^ ((i : ℝ) / ((n : ℝ) - 1))) := by
    unfold computeGridLevels
    rw [if_neg (by decide), if_pos rfl]
  constructor
  · refine ⟨_, hA, by simp, ?_, ?_, ?_, ?_⟩
    · refine List.pairwise_map.mpr ((List.pairwise_lt_range n).imp ?_)
      intro i j hij
      have h1 : (i : ℝ) < (j : ℝ) := by exact_mod_cast hij
      have h2 : (i : ℝ) * (upper - lower) < (j : ℝ) * (upper - lower) :=
        mul_lt_mul_of_pos_right h1 (by linarith)
      have h3 := (div_lt_div_iff_of_pos_right hd).mpr h2
      linarith
    · intro i hi
      simp [List.getElem?_map, List.getElem?_range hi]
    · have h0 : 0 < n := by omega
      rw [List.head?_eq_getElem?]
      simp [List.getElem?_map, List.getElem?_range h0]
    · have hn1 : n - 1 < n := by omega
      rw [List.getLast?_eq_getElem?]
      simp only [List.length_map, List.length_range, List.getElem?_map,
        List.getElem?_range hn1, Option.map_some']
      rw [hcast]
      have hmul : ((n : ℝ) - 1) * (upper - lower) / ((n : ℝ) - 1)
          = upper - lower := mul_div_cancel_left₀ _ hdne
      rw [hmul]
      norm_num
  · refine ⟨_, hG, by simp, ?_, ?_, ?_, ?_, ?_⟩
    · refine List.pairwise_map.mpr ((List.pairwise_lt_range n).imp ?_)
      intro i j hij
      have h1 : (i : ℝ) / ((n : ℝ) - 1) < (j : ℝ) / ((n : ℝ) - 1) := by
        refine (div_lt_div_iff_of_pos_right hd).mpr ?_
        exact_mod_cast hij
      have h2 := (Real.rpow_lt_rpow_left_iff hr1).mpr h1
      exact mul_lt_mul_of_pos_left h2 hl
    · intro i hi
      simp [List.getElem?_map, List.getElem?_range hi]
    · have h0 : 0 < n := by omega
      rw [List.head?_eq_getElem?]
      simp [List.getElem?_map, List.getElem?_range h0]
    · have hn1 : n - 1 < n := by omega
      rw [List.getLast?_eq_getElem?]
      simp only [List.length_map, List.length_range, List.getElem?_map,
        List.getElem?_range hn1, Option.map_some']
      rw [hcast, div_self hdne, Real.rpow_one, mul_comm lower (upper / lower),
        div_mul_cancel₀ _ hlne]
    · intro i x y hx hy
      have hiy : i + 1 < n := by
        by_contra hcon
        have hnone : (((List.range n).map fun i : ℕ =>
            lower * (upper / lower) ^ ((i : ℝ) / ((n : ℝ) - 1))))[i + 1]? = none := by
          apply List.getElem?_eq_none
          simpa using Nat.le_of_not_lt hcon
        rw [hnone] at hy
        exact Option.noConfusion hy
      have hix : i < n := by omega
      rw [List.getElem?_map, List.getElem?_range hix] at hx
      rw [List.getElem?_map, List.getElem?_range hiy] at hy
      simp only [Option.map_some', Option.some.injEq] at hx hy
      rw [← hx, ← hy]
      push_cast
      have hsplit : ((i : ℝ) + 1) / ((n : ℝ) - 1)
          = (i : ℝ) / ((n : ℝ) - 1) + 1 / ((n : ℝ) - 1) := by ring
      rw [hsplit, Real.rpow_add hr0, mul_assoc]

/-- C5 (witness): the grid-level properties evaluated at
`lower = 1`, `upper = 4`, `n = 3`. -/
theorem computeGridLevels_spec_witness :
    (∃ L : List ℝ, computeGridLevels 1 4 3 "arithmetic" = .ok L
      ∧ L.length = 3 ∧ L.Pairwise (· < ·)
      ∧ (∀ i : ℕ, i < 3 →
          L[i]? = some ((1 : ℝ) + (i : ℝ) * ((4 : ℝ) - 1) / (((3 : ℕ) : ℝ) - 1)))
      ∧ L.head? = some (1 : ℝ) ∧ L.getLast? = some (4 : ℝ))
    ∧ (∃ L : List ℝ, computeGridLevels 1 4 3 "geometric" = .ok L
      ∧ L.length = 3 ∧ L.Pairwise (· < ·)
      ∧ (∀ i : ℕ, i < 3 →
          L[i]? = some ((1 : ℝ) * ((4 : ℝ) / 1) ^ ((i : ℝ) / (((3 : ℕ) : ℝ) - 1))))
      ∧ L.head? = some (1 : ℝ) ∧ L.getLast? = some (4 : ℝ)
      ∧ (∀ (i : ℕ) (x y : ℝ), L[i]? = some x → L[i + 1]? = some y →
          y = x * ((4 : ℝ) / 1) ^ ((1 : ℝ) / (((3 : ℕ) : ℝ) - 1)))) :=
  computeGridLevels_spec 1 4 3 (by norm_num) (by norm_num) (by norm_num)

end GridBot
